import Mathlib

/-!
Verification of the RISC-V target backend of the CHERIoT LLD linker
(`lld/ELF/Arch/RISCV.cpp`) and of the compartment-export record emission in
`llvm/lib/Target/RISCV/RISCVAsmPrinter.cpp`, as a shallow embedding in Lean.

Machine integers are modelled as `Nat`/`Int`; 32-bit wrap-around is made
explicit with `% 2 ^ 32` where the C++ computes in `uint32_t` and the wrap can
matter.  Byte buffers are `List Nat` (each entry one byte).  The lld
diagnostic helpers `checkInt`/`checkAlignment`/`error` live outside the
excerpt; following the specification ("Every range/alignment check that fails
reports a user-visible error anchored at the relocation location", "no
write"), a failed check is modelled as an `Except.error` that suppresses the
write.
-/

namespace RV

/-- Relocation kinds used by the relaxation and relocation claims
(`R_RISCV_*` constants of `llvm/BinaryFormat/ELF.h`). -/
inductive RelType where
  | R_RISCV_NONE
  | R_RISCV_ALIGN
  | R_RISCV_CALL
  | R_RISCV_CALL_PLT
  | R_RISCV_CHERI_CCALL
  | R_RISCV_RELAX
  | R_RISCV_RVC_JUMP
  | R_RISCV_CHERI_RVC_CJUMP
  | R_RISCV_JAL
  | R_RISCV_CHERI_CJAL
  | R_RISCV_BRANCH
  | R_RISCV_CHERIOT_COMPARTMENT_HI
  | R_RISCV_CHERIOT_COMPARTMENT_LO_I
  | R_RISCV_CHERIOT_COMPARTMENT_LO_S
  deriving DecidableEq, Repr

/-- `EF_RISCV_RVC` machine-flag bit.  Modelled from the spec: the ELF flag
constants live in `llvm/BinaryFormat/ELF.h`, outside the excerpt. -/
def EF_RISCV_RVC : Nat := 0x0001

/-- `EF_RISCV_FLOAT_ABI` mask.  Modelled from the spec (see `EF_RISCV_RVC`). -/
def EF_RISCV_FLOAT_ABI : Nat := 0x0006

/-- `EF_RISCV_RVE` bit.  Modelled from the spec (see `EF_RISCV_RVC`). -/
def EF_RISCV_RVE : Nat := 0x0008

/-- `EF_RISCV_CHERIABI` bit.  Modelled from the spec (see `EF_RISCV_RVC`). -/
def EF_RISCV_CHERIABI : Nat := 0x10000

/-- `EF_RISCV_CAP_MODE` bit.  Modelled from the spec (see `EF_RISCV_RVC`). -/
def EF_RISCV_CAP_MODE : Nat := 0x20000

/-- Register numbers from `enum Reg` in RISCV.cpp. -/
def X_RA : Nat := 1

def X_T0 : Nat := 5

def X_T1 : Nat := 6

def X_T2 : Nat := 7

def X_T3 : Nat := 28

/-- Opcode constants from `enum Op` in RISCV.cpp. -/
def ADDI : Nat := 0x13

def AUIPC : Nat := 0x17

def JALR : Nat := 0x67

def LD : Nat := 0x3003

def LW : Nat := 0x2003

def SRLI : Nat := 0x5013

def SUB : Nat := 0x40000033

def CIncOffsetImm : Nat := 0x105b

def CLC_64 : Nat := 0x3003

def CLC_128 : Nat := 0x200f

def CSub : Nat := 0x2800005b

/-- `hi20` from RISCV.cpp line 82: `(val + 0x800) >> 12` in `uint32_t`
arithmetic (the addition wraps modulo 2^32). -/
def hi20 (val : Nat) : Nat := ((val + 0x800) % 2 ^ 32) >>> 12

/-- `lo12` from RISCV.cpp line 83: `val & 4095`. -/
def lo12 (val : Nat) : Nat := val &&& 4095

/-- `itype` instruction encoder (RISCV.cpp lines 85-87); the `imm << 20`
shift wraps in `uint32_t`. -/
def itype (op rd rs1 imm : Nat) : Nat :=
  op ||| (rd <<< 7) ||| (rs1 <<< 15) ||| ((imm <<< 20) % 2 ^ 32)

/-- `rtype` instruction encoder (RISCV.cpp lines 88-90). -/
def rtype (op rd rs1 rs2 : Nat) : Nat :=
  op ||| (rd <<< 7) ||| (rs1 <<< 15) ||| ((rs2 <<< 20) % 2 ^ 32)

/-- `utype` instruction encoder (RISCV.cpp lines 91-93); the `imm << 12`
shift wraps in `uint32_t`. -/
def utype (op rd imm : Nat) : Nat :=
  op ||| (rd <<< 7) ||| ((imm <<< 12) % 2 ^ 32)

/-- `extractBits` from RISCV.cpp lines 377-380: bits `[begin:end]` of a
64-bit value, inclusive range. -/
def extractBits (v b e : Nat) : Nat := (v &&& (1 <<< (b + 1) - 1)) >>> e

/-- `llvm::isInt<N>(x)`: `x` fits in `N` signed bits. -/
def isIntN (n : Nat) (x : Int) : Bool := -(2 ^ (n - 1)) ≤ x && x < 2 ^ (n - 1)

/-- Reinterpret an `Int` as its `uint64_t` bit pattern (value modulo 2^64),
as done by the implicit conversions when a computed relocation value is
handed to `relocate`. -/
def toU64 (x : Int) : Nat := (x % (2 ^ 64 : Int)).toNat

/-- Arithmetic (sign-preserving) right shift of an `int64_t`, i.e. floor
division by a power of two. -/
def sar (x : Int) (n : Nat) : Int := Int.fdiv x (2 ^ n)

/-- Sign-extend a 12-bit field (`sign_extend12` of the specification's
hi/lo round-trip property). -/
def signExtend12 (x : Nat) : Int :=
  if x % 2 ^ 12 < 2 ^ 11 then (x % 2 ^ 12 : Nat) else (x % 2 ^ 12 : Nat) - 2 ^ 12

/-- Interpret an integer as a signed 32-bit quantity (the value the 32-bit
`auipc`/`addi` register pair holds). -/
def toSigned32 (x : Int) : Int :=
  if x % (2 ^ 32 : Int) < 2 ^ 31 then x % (2 ^ 32 : Int)
  else x % (2 ^ 32 : Int) - 2 ^ 32

/-- The `R_RISCV_BRANCH` case of `RISCV::relocate` (RISCV.cpp lines 456-469):
check `val >> 1` fits in 12 signed bits, check 2-byte alignment, then scatter
the immediate into the B-type fields, preserving the bits of mask
`0x1FFF07F`.  A failed check is an error and suppresses the write (the
check/abort behaviour of lld's `checkInt`/`checkAlignment` is outside the
excerpt and modelled from the spec). -/
def relocateBranch (insn : Nat) (val : Int) : Except String Nat :=
  if ¬ isIntN 12 (sar val 1) = true then .error "relocation out of range"
  else if ¬ val % 2 = 0 then .error "improper alignment"
  else
    let v := toU64 val
    let base := insn &&& 0x1FFF07F
    let imm12 := extractBits v 12 12 <<< 31
    let imm10_5 := extractBits v 10 5 <<< 25
    let imm4_1 := extractBits v 4 1 <<< 8
    let imm11 := extractBits v 11 11 <<< 7
    .ok (base ||| imm12 ||| imm10_5 ||| imm4_1 ||| imm11)

/-- The `R_RISCV_JAL`/`R_RISCV_CHERI_CJAL` case of `RISCV::relocate`
(RISCV.cpp lines 440-454): check `val >> 1` fits in 20 signed bits, check
2-byte alignment, then scatter the immediate into the J-type fields,
preserving the low 12 bits.  A failed check is an error and suppresses the
write (see `relocateBranch`). -/
def relocateJal (insn : Nat) (val : Int) : Except String Nat :=
  if ¬ isIntN 20 (sar val 1) = true then .error "relocation out of range"
  else if ¬ val % 2 = 0 then .error "improper alignment"
  else
    let v := toU64 val
    let base := insn &&& 0xFFF
    let imm20 := extractBits v 20 20 <<< 31
    let imm10_1 := extractBits v 10 1 <<< 21
    let imm11 := extractBits v 11 11 <<< 20
    let imm19_12 := extractBits v 19 12 <<< 12
    .ok (base ||| imm20 ||| imm10_1 ||| imm11 ||| imm19_12)

/-- One step of the `RISCV::calcEFlags` loop (RISCV.cpp lines 149-169),
acting on the pair (current target flags, no error so far): OR in
`EF_RISCV_RVC`, then require equality of the checked fields with the
target.  `lld::elf::error` accumulates diagnostics without stopping, so the
flag value keeps being computed; the Bool records whether any mismatch was
reported. -/
def mergeStep (acc : Nat × Bool) (f : Nat) : Nat × Bool :=
  let t := if f &&& EF_RISCV_RVC ≠ 0 then acc.1 ||| EF_RISCV_RVC else acc.1
  let ok := acc.2 &&
    (f &&& EF_RISCV_FLOAT_ABI == t &&& EF_RISCV_FLOAT_ABI) &&
    (f &&& EF_RISCV_RVE == t &&& EF_RISCV_RVE) &&
    (f &&& EF_RISCV_CHERIABI == t &&& EF_RISCV_CHERIABI) &&
    (f &&& EF_RISCV_CAP_MODE == t &&& EF_RISCV_CAP_MODE)
  (t, ok)

/-- `RISCV::calcEFlags` (RISCV.cpp lines 141-172) over the list of input
objects' `e_flags`: with no object files the result is 0; otherwise the
target is seeded from the first object and the loop runs over all objects
(the first included).  Returns (merged flags, no error reported). -/
def calcEFlags : List Nat → Nat × Bool
  | [] => (0, true)
  | f :: fs => (f :: fs).foldl mergeStep (f, true)

/-- Reinterpret an `Int` as its `uint32_t` bit pattern. -/
def toU32 (x : Int) : Nat := (x % (2 ^ 32 : Int)).toNat

/-- `RISCV::writePltHeader` (RISCV.cpp lines 229-270) as the list of eight
32-bit little-endian words it stores to the 32-byte header buffer.  Under
the CHERI ABI the header is `memset` to zero.  Otherwise eight instructions
are written; the `srli` at offset 20 is emitted only when `shift != 0`, and
when `shift == 0` the two loads and the `jalr` move down by 4 bytes and a
trailing `nop` fills offset 28.  `offset` is `gotPlt VA - plt VA`. -/
def writePltHeader (is64 isCheriAbi : Bool) (offset : Nat) : List Nat :=
  if isCheriAbi then List.replicate 8 0
  else
    let ptrsub := if isCheriAbi then CSub else SUB
    let ptrload := if isCheriAbi then (if is64 then CLC_128 else CLC_64)
                   else (if is64 then LD else LW)
    let ptraddi := if isCheriAbi then CIncOffsetImm else ADDI
    let shift := 2 - (if is64 then 1 else 0) - (if isCheriAbi then 1 else 0)
    let capSize := if is64 then 16 else 8
    let wordSize := if is64 then 8 else 4
    let ptrsize := if isCheriAbi then capSize else wordSize
    let w0 := utype AUIPC X_T2 (hi20 offset)
    let w1 := rtype ptrsub X_T1 X_T1 X_T3
    let w2 := itype ptrload X_T3 X_T2 (lo12 offset)
    let w3 := itype ADDI X_T1 X_T1 (2 ^ 32 - 44)
    let w4 := itype ptraddi X_T0 X_T2 (lo12 offset)
    if shift ≠ 0 then
      [w0, w1, w2, w3, w4,
        itype SRLI X_T1 X_T1 shift,
        itype ptrload X_T0 X_T0 ptrsize,
        itype JALR 0 X_T3 0]
    else
      [w0, w1, w2, w3, w4,
        itype ptrload X_T0 X_T0 ptrsize,
        itype JALR 0 X_T3 0,
        itype ADDI 0 0 0]

/-- The `interrupt-state` function attribute as parsed by
`RISCVAsmPrinter::runOnMachineFunction`. -/
inductive InterruptState where
  | unspecified
  | enabled
  | disabled
  deriving DecidableEq, Repr

/-- The interrupt flag from RISCVAsmPrinter.cpp lines 1262-1268:
`enabled` gives `1 << 3`, `disabled` gives `2 << 3`, default 0. -/
def interruptFlagOf : InterruptState → Nat
  | .enabled => 1 <<< 3
  | .disabled => 2 <<< 3
  | .unspecified => 0

/-- One `.compartment_exports` record as the list of 4 bytes emitted by
`RISCVAsmPrinter::emitEndOfAsmFile` (RISCVAsmPrinter.cpp lines 1326-1346):
a 2-byte little-endian label difference `fnSym - __compartment_pcc_start`,
one byte `min(255, (stackSize + 7) / 8)`, and one byte holding `LiveIns`,
which `runOnMachineFunction` computed as
`countUsedArgRegisters(MF) + interruptFlag`. -/
def exportRecordBytes (labelDiff stackSize usedArgRegs : Nat)
    (ist : InterruptState) : List Nat :=
  let s := (stackSize + 7) / 8
  [labelDiff % 256, labelDiff / 256 % 256, min 255 s,
    (usedArgRegs + interruptFlagOf ist) % 256]

/-! ## The relaxation engine -/

/-- A defined symbol as the relaxation engine sees it: `st_value`,
`st_size`, and the index of the input section it is defined in (`none` for
symbols that get no anchors). -/
structure Sym where
  value : Int
  size : Int
  secIdx : Option Nat := none
  deriving DecidableEq, Repr

/-- `SymbolAnchor` (RISCV.cpp lines 643-649): `d` is the index of the
symbol in the global symbol list; `isEnd` is true for the anchor of
`st_value + st_size`. -/
structure SymbolAnchor where
  offset : Nat
  d : Nat
  isEnd : Bool
  deriving DecidableEq, Repr

/-- A relocation record as consumed by `relax`.  The symbol-dependent
inputs of `relaxCall` and `relaxCGP` (`getVA`/`getPltVA`, `isPCCRelative`,
`getBiasedCGPOffset`, `getBiasedCGPOffsetLo12` — the latter three live in
Cheri.h/Cheri.cpp outside the excerpt) are carried as resolved attributes
of the record. -/
structure Relocation where
  offset : Nat
  rtype : RelType
  addend : Int
  isPltExpr : Bool := false
  symVA : Int := 0
  symPltVA : Int := 0
  symIsPCC : Bool := false
  symBiasedCGPOffset : Int := 0
  symBiasedCGPOffsetLo12 : Int := 0
  deriving DecidableEq, Repr

/-- An executable input section together with its `RISCVRelaxAux`
(RISCV.cpp lines 651-661): `relocDeltas` holds the values of the previous
relaxation pass, `relocTypes`/`writes` the rewrite table. -/
structure InputSection where
  secAddr : Nat
  executable : Bool := true
  rawData : List Nat := []
  relocations : List Relocation := []
  anchors : List SymbolAnchor := []
  relocDeltas : List Nat := []
  relocTypes : List RelType := []
  writes : List Nat := []
  bytesDropped : Nat := 0
  deriving DecidableEq, Repr

/-- Read one byte of a section buffer (0 beyond the end). -/
def byteAt (raw : List Nat) (i : Nat) : Nat := (raw.getD i 0) % 256

/-- `read32le` on a section buffer. -/
def read32le (raw : List Nat) (off : Nat) : Nat :=
  byteAt raw off + 2 ^ 8 * byteAt raw (off + 1) + 2 ^ 16 * byteAt raw (off + 2) +
    2 ^ 24 * byteAt raw (off + 3)

/-- `read64le` on a section buffer. -/
def read64le (raw : List Nat) (off : Nat) : Nat :=
  read32le raw off + 2 ^ 32 * read32le raw (off + 4)

/-- The outcome of the per-relocation `switch` in the `relax` loop: a
possibly rewritten relocation type (`relocTypes[i]`), a possibly pushed
instruction word (`writes`), and the number of bytes to remove. -/
structure RelaxDecision where
  newType : Option RelType := none
  push : Option Nat := none
  remove : Nat := 0
  deriving DecidableEq, Repr

/-- Per-section context threaded through the relaxation pass. -/
structure RelaxCtx where
  eflags : Nat
  is64 : Bool
  secAddr : Nat
  rawData : List Nat
  deriving Repr

/-- `relaxCall` (RISCV.cpp lines 710-740): relax an
`R_RISCV_CALL`/`R_RISCV_CALL_PLT` auipc+jalr pair (or the
`R_RISCV_CHERI_CCALL` auipcc+cjalr pair) to `c.j`, `c.jal`, or `jal`.
`rd` is extracted from bits 7..11 of the second instruction word;
`displace` is the distance from `loc` to the (PLT) destination. -/
def relaxCall (ctx : RelaxCtx) (r : Relocation) (loc : Int) : RelaxDecision :=
  let jalRVCType := if r.rtype = .R_RISCV_CHERI_CCALL then
    RelType.R_RISCV_CHERI_RVC_CJUMP else .R_RISCV_RVC_JUMP
  let jalType := if r.rtype = .R_RISCV_CHERI_CCALL then
    RelType.R_RISCV_CHERI_CJAL else .R_RISCV_JAL
  let rvc := ctx.eflags &&& EF_RISCV_RVC ≠ 0
  let insnPair := read64le ctx.rawData r.offset
  let rd := extractBits insnPair (32 + 11) (32 + 7)
  let dest := (if r.isPltExpr then r.symPltVA else r.symVA) + r.addend
  let displace := dest - loc
  if rvc ∧ isIntN 12 displace = true ∧ rd = 0 then
    { newType := some jalRVCType, push := some 0xa001, remove := 6 }
  else if rvc ∧ isIntN 12 displace = true ∧ rd = X_RA ∧ ctx.is64 = false then
    { newType := some jalRVCType, push := some 0x2001, remove := 6 }
  else if isIntN 21 displace = true then
    { newType := some jalType, push := some (0x6f ||| (rd <<< 7)), remove := 4 }
  else {}

/-- `relaxCGP` (RISCV.cpp lines 743-773): relax `auicgp` +
cincoffset/load/store against a CGP-relative symbol whose biased high
immediate is zero: delete the `auicgp` (HI) or rewrite the rs1 field of the
LO instruction to `cgp` (register 3, mask `~(31 << 15)` = `0xFFF07FFF`). -/
def relaxCGP (ctx : RelaxCtx) (r : Relocation) : RelaxDecision :=
  if r.symIsPCC then {}
  else if r.symBiasedCGPOffset - r.symBiasedCGPOffsetLo12 ≠ 0 then {}
  else
    match r.rtype with
    | .R_RISCV_CHERIOT_COMPARTMENT_HI =>
        { newType := some .R_RISCV_RELAX, remove := 4 }
    | .R_RISCV_CHERIOT_COMPARTMENT_LO_I =>
        let insn := read32le ctx.rawData r.offset
        { newType := some .R_RISCV_CHERIOT_COMPARTMENT_LO_I,
          push := some ((insn &&& 0xFFF07FFF) ||| (3 <<< 15)) }
    | .R_RISCV_CHERIOT_COMPARTMENT_LO_S =>
        let insn := read32le ctx.rawData r.offset
        { newType := some .R_RISCV_CHERIOT_COMPARTMENT_LO_I,
          push := some ((insn &&& 0xFFF07FFF) ||| (3 <<< 15)) }
    | _ => {}

/-- `llvm::PowerOf2Ceil`: the least power of two that is ≥ `n` (0 for 0). -/
def powerOf2Ceil (n : Nat) : Nat := if n = 0 then 0 else 2 ^ Nat.clog 2 n

/-- The `R_RISCV_ALIGN` case of the `relax` loop (RISCV.cpp lines 878-886):
all bytes beyond the next alignment boundary are removed.  The source
asserts the count is non-negative; `Int.toNat` makes the model total. -/
def alignDecision (loc addend : Int) : RelaxDecision :=
  let nextLoc := loc + addend
  let align : Int := powerOf2Ceil (addend + 2).toNat
  let boundary := Int.fdiv (loc + align - 1) align * align
  { remove := (nextLoc - boundary).toNat }

/-- `i + 1 != sec.relocations.size() && sec.relocations[i+1].type ==
R_RISCV_RELAX` expressed on the list of relocations after index `i`. -/
def nextIsRelax : List Relocation → Bool
  | r2 :: _ => r2.rtype = .R_RISCV_RELAX
  | [] => false

/-- The per-relocation `switch` of the `relax` loop (RISCV.cpp lines
877-900), computing the rewrite decision for relocation `r` given the
relocations `rest` that follow it and the cumulative `delta` so far
(`loc = secAddr + r.offset - delta`). -/
def decisionOf (ctx : RelaxCtx) (r : Relocation) (rest : List Relocation)
    (delta : Nat) : RelaxDecision :=
  let loc : Int := (ctx.secAddr : Int) + r.offset - delta
  match r.rtype with
  | .R_RISCV_ALIGN => alignDecision loc r.addend
  | .R_RISCV_CALL => if nextIsRelax rest then relaxCall ctx r loc else {}
  | .R_RISCV_CALL_PLT => if nextIsRelax rest then relaxCall ctx r loc else {}
  | .R_RISCV_CHERI_CCALL => if nextIsRelax rest then relaxCall ctx r loc else {}
  | .R_RISCV_CHERIOT_COMPARTMENT_HI =>
      if nextIsRelax rest then relaxCGP ctx r else {}
  | .R_RISCV_CHERIOT_COMPARTMENT_LO_I =>
      if nextIsRelax rest then relaxCGP ctx r else {}
  | .R_RISCV_CHERIOT_COMPARTMENT_LO_S =>
      if nextIsRelax rest then relaxCGP ctx r else {}
  | _ => {}

/-- Functional update of the symbol list at index `d`. -/
def updateSym : List Sym → Nat → (Sym → Sym) → List Sym
  | [], _, _ => []
  | s :: rest, 0, f => f s :: rest
  | s :: rest, d + 1, f => s :: updateSym rest d f

/-- The anchor adjustment of RISCV.cpp lines 905-910 (and 918-923) for a
single anchor drained with cumulative delta `delta`: an end anchor sets
`d->size = offset - delta - d->value`; a start anchor decrements
`d->value` by `delta - valueDelta[d]`. -/
def applyAnchorEvent (vd : Nat → Nat) (syms : List Sym)
    (ad : SymbolAnchor × Nat) : List Sym :=
  let a := ad.1
  let delta := ad.2
  if a.isEnd then
    updateSym syms a.d (fun s => { s with size := (a.offset : Int) - delta - s.value })
  else
    updateSym syms a.d (fun s => { s with value := s.value - ((delta : Int) - vd a.d) })

/-- Drain a list of anchor events in order. -/
def applyAnchorEvents (vd : Nat → Nat) (syms : List Sym)
    (l : List (SymbolAnchor × Nat)) : List Sym :=
  l.foldl (applyAnchorEvent vd) syms

/-- The `valueDelta` drain of RISCV.cpp lines 859-861: consume the anchors
with `offset <= o`, recording `valueDelta[d] = delta` for start anchors. -/
def drainVD (delta o : Nat) : (Nat → Nat) → List SymbolAnchor →
    ((Nat → Nat) × List SymbolAnchor)
  | vd, [] => (vd, [])
  | vd, a :: rest =>
      if a.offset ≤ o then
        drainVD delta o
          (if a.isEnd then vd else Function.update vd a.d delta) rest
      else (vd, a :: rest)

/-- The first loop of `relax` (RISCV.cpp lines 855-868): compute the
`st_value` delta of the previous pass for every symbol anchored in this
section.  `pds` is the previous pass's `relocDeltas`. -/
def phase1Loop : List Relocation → List Nat → (Nat → Nat) →
    List SymbolAnchor → Nat → (Nat → Nat)
  | [], _, vd, sa, delta =>
      sa.foldl (fun vd a =>
        if a.isEnd then vd else Function.update vd a.d delta) vd
  | r :: rest, pds, vd, sa, delta =>
      let p := drainVD delta r.offset vd sa
      phase1Loop rest pds.tail p.1 p.2 (pds.headD 0)

/-- `valueDelta` as computed by the first loop of `relax`, as a total map
(symbol index to previous-pass delta; `DenseMap` lookups in the second loop
only ever hit inserted keys). -/
def phase1VD (rels : List Relocation) (pds : List Nat)
    (anchors : List SymbolAnchor) : Nat → Nat :=
  phase1Loop rels pds (fun _ => 0) anchors 0

/-- State of the main `relax` loop (RISCV.cpp lines 872-916). -/
structure P2State where
  syms : List Sym
  sa : List SymbolAnchor
  delta : Nat
  deltas : List Nat
  types : List RelType
  writes : List Nat
  changed : Bool

/-- The main loop of `relax` (RISCV.cpp lines 872-916): for each relocation
compute the rewrite decision, drain the anchors with `offset <= r.offset`
using the current `delta`, then add `remove` to `delta`, record it as the
new `relocDeltas[i]` and compare with the previous pass's value `pds[i]`. -/
def relaxLoop (ctx : RelaxCtx) (vd : Nat → Nat) :
    List Relocation → List Nat → P2State → P2State
  | [], _, st => st
  | r :: rest, pds, st =>
      let dec := decisionOf ctx r rest st.delta
      let consumed := st.sa.takeWhile (fun a => a.offset ≤ r.offset)
      let sa2 := st.sa.dropWhile (fun a => a.offset ≤ r.offset)
      let syms2 := applyAnchorEvents vd st.syms (consumed.map (fun a => (a, st.delta)))
      let delta2 := st.delta + dec.remove
      relaxLoop ctx vd rest pds.tail
        { syms := syms2, sa := sa2, delta := delta2,
          deltas := st.deltas ++ [delta2],
          types := st.types ++ [dec.newType.getD .R_RISCV_NONE],
          writes := st.writes ++ dec.push.toList,
          changed := st.changed || decide (delta2 ≠ pds.headD 0) }

/-- Result of one `relax` call on one section. -/
structure RelaxOut where
  syms : List Sym
  relocDeltas : List Nat
  relocTypes : List RelType
  writes : List Nat
  bytesDropped : Nat
  changed : Bool
  fatalErr : Bool
  deriving DecidableEq, Repr

/-- `relax` (RISCV.cpp lines 844-929) on one section: compute `valueDelta`
from the previous pass's `relocDeltas`, run the main loop, drain the
remaining anchors with the final delta (lines 918-923), and fail fatally
when the final delta does not fit in 16 unsigned bits (line 925-926; the
C++ `fatal` aborts, modelled as the `fatalErr` flag).  The pass-0 call to
`rewriteCheriotLowRelocs` (line 850-851) only retargets
`R_RISCV_CHERIOT_COMPARTMENT_LO_I` relocations before this function's loop
runs; the model quantifies over the (possibly rewritten) relocation list. -/
def relax (eflags : Nat) (is64 : Bool) (syms : List Sym)
    (sec : InputSection) : RelaxOut :=
  let ctx : RelaxCtx := ⟨eflags, is64, sec.secAddr, sec.rawData⟩
  let vd := phase1VD sec.relocations sec.relocDeltas sec.anchors
  let st := relaxLoop ctx vd sec.relocations sec.relocDeltas
    { syms := syms, sa := sec.anchors, delta := 0, deltas := [],
      types := [], writes := [], changed := false }
  let syms2 := applyAnchorEvents vd st.syms (st.sa.map (fun a => (a, st.delta)))
  { syms := syms2, relocDeltas := st.deltas, relocTypes := st.types,
    writes := st.writes, bytesDropped := st.delta, changed := st.changed,
    fatalErr := decide (¬ st.delta < 2 ^ 16) }

/-- The cumulative delta in effect when an anchor at offset `o` of the
section is drained by the `relax` loop started on relocation list `rels`
with cumulative delta `delta`: the anchor is adjusted at the first
relocation whose offset is ≥ `o`, before that relocation's own removal is
added (RISCV.cpp lines 905-911); anchors past every relocation get the
final delta (lines 918-923). -/
def deltaUsedAt (ctx : RelaxCtx) : List Relocation → Nat → Nat → Nat
  | [], delta, _ => delta
  | r :: rest, delta, o =>
      if o ≤ r.offset then delta
      else deltaUsedAt ctx rest (delta + (decisionOf ctx r rest delta).remove) o

/-- The anchors of the section annotated with the cumulative delta each one
is drained with, mirroring the interleaving of anchor draining and
relocation processing in the `relax` loop. -/
def annotateAnchors (ctx : RelaxCtx) :
    List Relocation → Nat → List SymbolAnchor → List (SymbolAnchor × Nat)
  | [], delta, sa => sa.map (fun a => (a, delta))
  | r :: rest, delta, sa =>
      (sa.takeWhile (fun a => a.offset ≤ r.offset)).map (fun a => (a, delta)) ++
      annotateAnchors ctx rest (delta + (decisionOf ctx r rest delta).remove)
        (sa.dropWhile (fun a => a.offset ≤ r.offset))

/-- The successive `relocDeltas` values produced by the `relax` loop. -/
def deltasFrom (ctx : RelaxCtx) : List Relocation → Nat → List Nat
  | [], _ => []
  | r :: rest, delta =>
      let delta2 := delta + (decisionOf ctx r rest delta).remove
      delta2 :: deltasFrom ctx rest delta2

/-- Total number of bytes the pass removes from the section: the sum of
the per-relocation `remove` values. -/
def totalRemoved (ctx : RelaxCtx) : List Relocation → Nat → Nat
  | [], _ => 0
  | r :: rest, delta =>
      let rm := (decisionOf ctx r rest delta).remove
      rm + totalRemoved ctx rest (delta + rm)

/-! ## relaxOnce -/

/-- The linker configuration bits `RISCV::relaxOnce` and
`initSymbolAnchors` consume. -/
structure Config where
  relocatable : Bool
  is64 : Bool := false
  isCheriAbi : Bool := false
  eflags : Nat := 0
  deriving DecidableEq, Repr

/-- Global relaxation state: the symbol list and the input sections of the
executable output sections. -/
structure LinkState where
  syms : List Sym
  sections : List InputSection
  deriving DecidableEq, Repr

/-- Comparator of `initSymbolAnchors` (RISCV.cpp lines 700-703):
`(offset, end) < (offset, end)` lexicographically, as a total ≤. -/
def anchorLe (a b : SymbolAnchor) : Bool :=
  a.offset < b.offset || (a.offset == b.offset && (!a.isEnd || b.isEnd))

/-- Insertion step of the anchor sort. -/
def insertAnchor (a : SymbolAnchor) : List SymbolAnchor → List SymbolAnchor
  | [] => [a]
  | b :: rest => if anchorLe a b then a :: b :: rest else b :: insertAnchor a rest

/-- Sort anchors by `(offset, end)` (RISCV.cpp lines 696-705). -/
def sortAnchors (l : List SymbolAnchor) : List SymbolAnchor :=
  l.foldr insertAnchor []

/-- The anchors `initSymbolAnchors` pushes for section `idx`: for every
defined symbol of the section, `(st_value, false)` and
`(st_value + st_size, true)` (RISCV.cpp lines 680-691). -/
def anchorsFor (idx : Nat) (syms : List Sym) : List SymbolAnchor :=
  syms.enum.flatMap (fun p =>
    if p.2.secIdx = some idx then
      [⟨p.2.value.toNat, p.1, false⟩, ⟨(p.2.value + p.2.size).toNat, p.1, true⟩]
    else [])

/-- `initSymbolAnchors` on one executable section: fresh relax-aux with
zeroed `relocDeltas`, `R_RISCV_NONE` `relocTypes`, and sorted anchors
(RISCV.cpp lines 663-706). -/
def initSection (syms : List Sym) (p : Nat × InputSection) : InputSection :=
  let sec := p.2
  if sec.executable then
    { sec with
      anchors := sortAnchors (anchorsFor p.1 syms),
      relocDeltas := List.replicate sec.relocations.length 0,
      relocTypes := List.replicate sec.relocations.length .R_RISCV_NONE,
      writes := [] }
  else sec

/-- `initSymbolAnchors` (RISCV.cpp lines 663-706). -/
def initSymbolAnchors (st : LinkState) : LinkState :=
  { st with sections := st.sections.enum.map (initSection st.syms) }

/-- Result of `RISCV::relaxOnce`: the changed flag it returns, the updated
link state, and whether a fatal error was raised. -/
structure RelaxOnceOut where
  changed : Bool
  st : LinkState
  fatalErr : Bool
  deriving DecidableEq, Repr

/-- Fold `relax` over one section, threading symbols, rebuilt sections,
the changed flag and the fatal flag. -/
def relaxSectionStep (cfg : Config)
    (acc : List Sym × List InputSection × Bool × Bool) (sec : InputSection) :
    List Sym × List InputSection × Bool × Bool :=
  if sec.executable then
    let out := relax cfg.eflags cfg.is64 acc.1 sec
    let sec2 : InputSection :=
      { sec with
        relocDeltas := out.relocDeltas
        relocTypes := out.relocTypes
        writes := out.writes
        bytesDropped := out.bytesDropped }
    (out.syms, acc.2.1 ++ [sec2], acc.2.2.1 || out.changed,
      acc.2.2.2 || out.fatalErr)
  else (acc.1, acc.2.1 ++ [sec], acc.2.2.1, acc.2.2.2)

/-- `RISCV::relaxOnce` (RISCV.cpp lines 938-955): under `--relocatable`
return false immediately; otherwise initialise the symbol anchors on pass 0
and relax every executable input section, ORing the per-section changed
flags. -/
def relaxOnce (cfg : Config) (pass : Nat) (st : LinkState) : RelaxOnceOut :=
  if cfg.relocatable then ⟨false, st, false⟩
  else
    let st1 := if pass = 0 then initSymbolAnchors st else st
    let out := st1.sections.foldl (relaxSectionStep cfg) (st1.syms, [], false, false)
    ⟨out.2.2.1, ⟨out.1, out.2.1⟩, out.2.2.2⟩

/-! ## Helper lemmas -/

theorem updateSym_getElem_self (l : List Sym) (d : Nat) (f : Sym → Sym) :
    (updateSym l d f)[d]? = (l[d]?).map f := by
  induction l generalizing d with
  | nil => simp [updateSym]
  | cons s rest ih =>
      cases d with
      | zero => simp [updateSym]
      | succ d => simpa [updateSym] using ih d

theorem updateSym_getElem_ne (l : List Sym) (i d : Nat) (f : Sym → Sym)
    (h : i ≠ d) : (updateSym l i f)[d]? = l[d]? := by
  induction l generalizing i d with
  | nil => simp [updateSym]
  | cons s rest ih =>
      cases i with
      | zero =>
          cases d with
          | zero => exact absurd rfl h
          | succ d => simp [updateSym]
      | succ i =>
          cases d with
          | zero => simp [updateSym]
          | succ d => simpa [updateSym] using ih i d (by omega)

theorem applyAnchorEvents_append (vd : Nat → Nat) (syms : List Sym)
    (l1 l2 : List (SymbolAnchor × Nat)) :
    applyAnchorEvents vd syms (l1 ++ l2) =
      applyAnchorEvents vd (applyAnchorEvents vd syms l1) l2 :=
  List.foldl_append _ _ _ _

theorem applyAnchorEvents_cons (vd : Nat → Nat) (syms : List Sym)
    (p : SymbolAnchor × Nat) (l : List (SymbolAnchor × Nat)) :
    applyAnchorEvents vd syms (p :: l) =
      applyAnchorEvents vd (applyAnchorEvent vd syms p) l := rfl

theorem applyAnchorEvents_untouched (vd : Nat → Nat) (syms : List Sym)
    (l : List (SymbolAnchor × Nat)) (d : Nat)
    (h : ∀ p ∈ l, p.1.d ≠ d) :
    (applyAnchorEvents vd syms l)[d]? = syms[d]? := by
  induction l generalizing syms with
  | nil => rfl
  | cons p rest ih =>
      have hp : p.1.d ≠ d := h p (by simp)
      have hr : ∀ q ∈ rest, q.1.d ≠ d := fun q hq => h q (by simp [hq])
      rw [applyAnchorEvents_cons, ih _ hr, applyAnchorEvent]
      split <;> exact updateSym_getElem_ne _ _ _ _ hp

theorem applyEvents_two (vd : Nat → Nat) (syms : List Sym) (d S E δs δe : Nat)
    (ex ey ez : List (SymbolAnchor × Nat)) (s0 : Sym)
    (hx : ∀ p ∈ ex, p.1.d ≠ d) (hy : ∀ p ∈ ey, p.1.d ≠ d)
    (hz : ∀ p ∈ ez, p.1.d ≠ d) (h0 : syms[d]? = some s0) :
    (applyAnchorEvents vd syms
        (ex ++ (⟨S, d, false⟩, δs) :: (ey ++ (⟨E, d, true⟩, δe) :: ez)))[d]? =
      some { s0 with
        value := s0.value - ((δs : Int) - vd d),
        size := (E : Int) - δe - (s0.value - ((δs : Int) - vd d)) } := by
  rw [applyAnchorEvents_append, applyAnchorEvents_cons, applyAnchorEvents_append,
    applyAnchorEvents_cons]
  rw [applyAnchorEvents_untouched _ _ _ _ hz]
  rw [applyAnchorEvent]
  simp only [Bool.false_eq_true, if_false, if_true]
  rw [updateSym_getElem_self]
  rw [applyAnchorEvents_untouched _ _ _ _ hy]
  rw [applyAnchorEvent]
  simp only [Bool.false_eq_true, if_false]
  rw [updateSym_getElem_self]
  rw [applyAnchorEvents_untouched _ _ _ _ hx, h0]
  rfl

theorem relaxLoop_syms (ctx : RelaxCtx) (vd : Nat → Nat)
    (rels : List Relocation) (pds : List Nat) (st : P2State) :
    applyAnchorEvents vd (relaxLoop ctx vd rels pds st).syms
        ((relaxLoop ctx vd rels pds st).sa.map
          (fun a => (a, (relaxLoop ctx vd rels pds st).delta))) =
      applyAnchorEvents vd st.syms (annotateAnchors ctx rels st.delta st.sa) := by
  induction rels generalizing pds st with
  | nil => rfl
  | cons r rest ih =>
      rw [relaxLoop, annotateAnchors, applyAnchorEvents_append]
      exact ih _ _

theorem relax_syms_eq (eflags : Nat) (is64 : Bool) (syms : List Sym)
    (sec : InputSection) :
    (relax eflags is64 syms sec).syms =
      applyAnchorEvents (phase1VD sec.relocations sec.relocDeltas sec.anchors)
        syms
        (annotateAnchors ⟨eflags, is64, sec.secAddr, sec.rawData⟩
          sec.relocations 0 sec.anchors) := by
  rw [relax]
  exact relaxLoop_syms _ _ _ _ _

theorem sorted_dropWhile_gt (c : Nat) (l : List SymbolAnchor)
    (hs : l.Pairwise (fun a b => a.offset ≤ b.offset)) :
    ∀ a ∈ l.dropWhile (fun x => decide (x.offset ≤ c)), c < a.offset := by
  induction l with
  | nil => simp [List.dropWhile]
  | cons b tl ih =>
      rw [List.pairwise_cons] at hs
      by_cases hb : b.offset ≤ c
      · rw [List.dropWhile_cons]
        simp only [hb, decide_True, if_true]
        exact ih hs.2
      · rw [List.dropWhile_cons]
        simp only [hb, decide_False, if_false]
        intro a ha
        rcases List.mem_cons.mp ha with h | h
        · subst h; omega
        · have := hs.1 a h
          omega

theorem annotateAnchors_eq_map (ctx : RelaxCtx) (rels : List Relocation)
    (delta : Nat) (sa : List SymbolAnchor)
    (hs : sa.Pairwise (fun a b => a.offset ≤ b.offset)) :
    annotateAnchors ctx rels delta sa =
      sa.map (fun a => (a, deltaUsedAt ctx rels delta a.offset)) := by
  induction rels generalizing delta sa with
  | nil => simp [annotateAnchors, deltaUsedAt]
  | cons r rest ih =>
      rw [annotateAnchors]
      rw [ih _ _ (hs.sublist (List.dropWhile_sublist _))]
      conv_rhs => rw [← List.takeWhile_append_dropWhile
        (fun a => decide (a.offset ≤ r.offset)) sa]
      rw [List.map_append]
      congr 1
      · apply List.map_congr_left
        intro a ha
        have hp := List.mem_takeWhile_imp ha
        have hle : a.offset ≤ r.offset := by simpa using hp
        rw [deltaUsedAt, if_pos hle]
      · apply List.map_congr_left
        intro a ha
        have hgt := sorted_dropWhile_gt r.offset sa hs a ha
        rw [deltaUsedAt, if_neg (by omega)]

theorem relaxLoop_deltas (ctx : RelaxCtx) (vd : Nat → Nat)
    (rels : List Relocation) (pds : List Nat) (st : P2State) :
    (relaxLoop ctx vd rels pds st).deltas =
      st.deltas ++ deltasFrom ctx rels st.delta := by
  induction rels generalizing pds st with
  | nil => simp [relaxLoop, deltasFrom]
  | cons r rest ih =>
      rw [relaxLoop, deltasFrom, ih]
      simp

theorem relaxLoop_delta (ctx : RelaxCtx) (vd : Nat → Nat)
    (rels : List Relocation) (pds : List Nat) (st : P2State) :
    (relaxLoop ctx vd rels pds st).delta =
      st.delta + totalRemoved ctx rels st.delta := by
  induction rels generalizing pds st with
  | nil => simp [relaxLoop, totalRemoved]
  | cons r rest ih =>
      rw [relaxLoop, ih, totalRemoved]
      simp
      omega

theorem deltasFrom_chain (ctx : RelaxCtx) (rels : List Relocation) (delta : Nat) :
    List.Chain' (· ≤ ·) (delta :: deltasFrom ctx rels delta) := by
  induction rels generalizing delta with
  | nil => simp [deltasFrom]
  | cons r rest ih =>
      rw [deltasFrom]
      exact List.chain'_cons.mpr ⟨by omega, ih _⟩

theorem deltasFrom_getLast (ctx : RelaxCtx) (rels : List Relocation) (delta : Nat)
    (h : rels ≠ []) :
    (deltasFrom ctx rels delta).getLast? =
      some (delta + totalRemoved ctx rels delta) := by
  induction rels generalizing delta with
  | nil => contradiction
  | cons r rest ih =>
      rw [deltasFrom, totalRemoved]
      cases rest with
      | nil => simp [deltasFrom, totalRemoved]
      | cons r2 rest2 =>
          conv_lhs => rw [deltasFrom]
          rw [List.getLast?_cons_cons, ← deltasFrom, ih _ (by simp)]
          congr 1
          omega

theorem or_one_of_even (x : Nat) (h : x % 2 = 0) : x ||| 1 = x + 1 := by
  apply Nat.eq_of_testBit_eq
  intro i
  cases i with
  | zero =>
      have h2 : (x + 1) % 2 = 1 := by omega
      simp [Nat.testBit_or, Nat.testBit_zero, h2]
  | succ i =>
      rw [Nat.testBit_or, Nat.testBit_succ, Nat.testBit_succ, Nat.testBit_succ]
      have h1 : Nat.testBit (1 / 2) i = false := by
        norm_num
      rw [h1, Bool.or_false]
      congr 1
      omega

theorem eq_of_or_rvc_eq (x y : Nat) (hx : x &&& EF_RISCV_RVC = 0)
    (hy : y &&& EF_RISCV_RVC = 0)
    (h : x ||| EF_RISCV_RVC = y ||| EF_RISCV_RVC) : x = y := by
  rw [EF_RISCV_RVC] at hx hy h
  rw [Nat.and_one_is_mod] at hx hy
  rw [or_one_of_even x hx, or_one_of_even y hy] at h
  omega

theorem foldl_mergeStep_fst (l : List Nat) (t : Nat) (ok : Bool) :
    (l.foldl mergeStep (t, ok)).1 =
      if l.any (fun f => f &&& EF_RISCV_RVC != 0) then t ||| EF_RISCV_RVC else t := by
  induction l generalizing t ok with
  | nil => simp
  | cons f fs ih =>
      rw [List.foldl_cons, List.any_cons]
      rw [show List.foldl mergeStep (mergeStep (t, ok) f) fs =
        List.foldl mergeStep ((mergeStep (t, ok) f).1, (mergeStep (t, ok) f).2) fs
        from rfl]
      rw [ih]
      by_cases hf : f &&& EF_RISCV_RVC ≠ 0
      · have h1 : (mergeStep (t, ok) f).1 = t ||| EF_RISCV_RVC := by
          simp [mergeStep, hf]
        rw [h1]
        have h2 : (f &&& EF_RISCV_RVC != 0) = true := by simpa using hf
        simp only [h2, Bool.true_or, if_true]
        split
        · rw [Nat.or_assoc, Nat.or_self]
        · rfl
      · have h1 : (mergeStep (t, ok) f).1 = t := by
          simp [mergeStep, hf]
        rw [h1]
        have h2 : (f &&& EF_RISCV_RVC != 0) = false := by simpa using hf
        simp only [h2, Bool.false_or]

theorem calcEFlags_fst (f : Nat) (fs : List Nat) :
    (calcEFlags (f :: fs)).1 =
      if (f :: fs).any (fun x => x &&& EF_RISCV_RVC != 0) then f ||| EF_RISCV_RVC
      else f := by
  rw [calcEFlags]
  exact foldl_mergeStep_fst _ _ _

theorem perm_any_eq {l1 l2 : List Nat} (p : Nat → Bool) (h : l1.Perm l2) :
    l1.any p = l2.any p := by
  cases h1 : l1.any p <;> cases h2 : l2.any p
  · rfl
  · rw [List.any_eq_true] at h2
    rcases h2 with ⟨x, hx, hpx⟩
    rw [List.any_eq_false] at h1
    exact absurd hpx (h1 x (h.mem_iff.mpr hx))
  · rw [List.any_eq_true] at h1
    rcases h1 with ⟨x, hx, hpx⟩
    rw [List.any_eq_false] at h2
    exact absurd hpx (h2 x (h.mem_iff.mp hx))
  · rfl

theorem calcEFlags_perm_val (a b c : Nat)
    (hab : a ||| EF_RISCV_RVC = b ||| EF_RISCV_RVC)
    (hbc : b ||| EF_RISCV_RVC = c ||| EF_RISCV_RVC)
    (l : List Nat) (hp : l.Perm [a, b, c]) :
    (calcEFlags l).1 =
      if [a, b, c].any (fun x => x &&& EF_RISCV_RVC != 0) then a ||| EF_RISCV_RVC
      else a := by
  match l, hp.length_eq with
  | h :: t, _ =>
    rw [calcEFlags_fst]
    rw [perm_any_eq _ hp]
    have hmem : h ∈ [a, b, c] := hp.mem_iff.mp (by simp)
    split
    case isTrue hany =>
      rcases List.mem_cons.mp hmem with rfl | hm
      · rfl
      rcases List.mem_cons.mp hm with rfl | hm2
      · exact hab.symm
      rcases List.mem_cons.mp hm2 with rfl | hm3
      · exact (hab.trans hbc).symm
      · simp at hm3
    case isFalse hany =>
      have hany2 : ([a, b, c].any (fun x => x &&& EF_RISCV_RVC != 0)) = false := by
        simpa using hany
      rw [List.any_eq_false] at hany2
      have ha : a &&& EF_RISCV_RVC = 0 := by
        have := hany2 a (by simp)
        simpa using this
      have hb : b &&& EF_RISCV_RVC = 0 := by
        have := hany2 b (by simp)
        simpa using this
      have hc : c &&& EF_RISCV_RVC = 0 := by
        have := hany2 c (by simp)
        simpa using this
      rcases List.mem_cons.mp hmem with rfl | hm
      · rfl
      rcases List.mem_cons.mp hm with rfl | hm2
      · exact eq_of_or_rvc_eq _ _ hb ha hab.symm
      rcases List.mem_cons.mp hm2 with rfl | hm3
      · exact eq_of_or_rvc_eq _ _ hc ha (hab.trans hbc).symm
      · simp at hm3

/-! ## The claims -/

/-- Claim C1: for every defined text symbol of a section undergoing
relaxation, after a relaxation pass `new_value = old_value - Δstart` and
`new_size = old_size - (Δend - Δstart)`, where `Δstart`/`Δend` are the
cumulative byte deltas in effect at the symbol's start/end anchor.  The
anchors record the symbol's pre-relaxation `st_value` (= `S`) and
`st_value + st_size` (= `E`), so `old_value = S` and `old_size = E - S`;
the hypothesis `hval` states the invariant that the value entering the
pass already accounts for the previous pass's delta (`phase1VD`), which on
the first pass (all previous deltas zero) is just `value = S`. -/
theorem relax_symbol_value_size
    (eflags : Nat) (is64 : Bool) (syms : List Sym) (sec : InputSection)
    (d S E : Nat) (s0 : Sym) (X Y Z : List SymbolAnchor)
    (hanch : sec.anchors = X ++ ⟨S, d, false⟩ :: (Y ++ ⟨E, d, true⟩ :: Z))
    (hothers : ∀ a ∈ X ++ Y ++ Z, a.d ≠ d)
    (hsorted : sec.anchors.Pairwise (fun a b => a.offset ≤ b.offset))
    (hsym : syms[d]? = some s0)
    (hval : s0.value =
      (S : Int) - phase1VD sec.relocations sec.relocDeltas sec.anchors d)
    (hsize : s0.size = (E : Int) - S) :
    ((relax eflags is64 syms sec).syms[d]?).map Sym.value =
      some ((S : Int) -
        deltaUsedAt ⟨eflags, is64, sec.secAddr, sec.rawData⟩ sec.relocations 0 S) ∧
    ((relax eflags is64 syms sec).syms[d]?).map Sym.size =
      some (s0.size -
        ((deltaUsedAt ⟨eflags, is64, sec.secAddr, sec.rawData⟩ sec.relocations 0 E : Int) -
          deltaUsedAt ⟨eflags, is64, sec.secAddr, sec.rawData⟩ sec.relocations 0 S)) := by
  set ctx : RelaxCtx := ⟨eflags, is64, sec.secAddr, sec.rawData⟩ with hctx
  set vd := phase1VD sec.relocations sec.relocDeltas sec.anchors with hvd
  set f : SymbolAnchor → SymbolAnchor × Nat :=
    fun a => (a, deltaUsedAt ctx sec.relocations 0 a.offset) with hf
  have hx : ∀ p ∈ X.map f, p.1.d ≠ d := by
    intro p hp
    rcases List.mem_map.mp hp with ⟨a, ha, rfl⟩
    exact hothers a (by simp [ha])
  have hy : ∀ p ∈ Y.map f, p.1.d ≠ d := by
    intro p hp
    rcases List.mem_map.mp hp with ⟨a, ha, rfl⟩
    exact hothers a (by simp [ha])
  have hz : ∀ p ∈ Z.map f, p.1.d ≠ d := by
    intro p hp
    rcases List.mem_map.mp hp with ⟨a, ha, rfl⟩
    exact hothers a (by simp [ha])
  have hmap : annotateAnchors ctx sec.relocations 0 sec.anchors =
      X.map f ++ (⟨S, d, false⟩, deltaUsedAt ctx sec.relocations 0 S) ::
        (Y.map f ++ (⟨E, d, true⟩, deltaUsedAt ctx sec.relocations 0 E) :: Z.map f) := by
    rw [annotateAnchors_eq_map _ _ _ _ hsorted, hanch]
    simp [hf]
  have key := applyEvents_two vd syms d S E
    (deltaUsedAt ctx sec.relocations 0 S) (deltaUsedAt ctx sec.relocations 0 E)
    (X.map f) (Y.map f) (Z.map f) s0 hx hy hz hsym
  have hsy : (relax eflags is64 syms sec).syms[d]? =
      some { s0 with
        value := s0.value - ((deltaUsedAt ctx sec.relocations 0 S : Int) - vd d),
        size := (E : Int) - deltaUsedAt ctx sec.relocations 0 E -
          (s0.value - ((deltaUsedAt ctx sec.relocations 0 S : Int) - vd d)) } := by
    rw [relax_syms_eq, ← hvd, ← hctx, hmap]
    exact key
  rw [hsy]
  constructor
  · simp only [Option.map_some']
    congr 1
    rw [hval]
    ring
  · simp only [Option.map_some']
    congr 1
    rw [hval, hsize]
    ring

/-- Witness for C1: a section at VA 0 holding the pair `auipc x0` /
`jalr x0` with an `R_RISCV_CALL` + `R_RISCV_RELAX` pair against a symbol 2
bytes away: the call is relaxed to `c.j` (6 bytes removed after the
symbol's start anchor and before its end anchor), so the symbol keeps
value 0 and shrinks from size 8 to size 2. -/
theorem relax_symbol_value_size_witness :
    ((relax 1 false [{ value := 0, size := 8, secIdx := some 0 }]
      { secAddr := 0, rawData := [0x17, 0, 0, 0, 0x67, 0, 0, 0],
        relocations := [{ offset := 0, rtype := .R_RISCV_CALL, addend := 0, symVA := 2 },
          { offset := 0, rtype := .R_RISCV_RELAX, addend := 0 }],
        anchors := [⟨0, 0, false⟩, ⟨8, 0, true⟩],
        relocDeltas := [0, 0],
        relocTypes := [.R_RISCV_NONE, .R_RISCV_NONE] }).syms[0]?).map Sym.value =
      some 0 ∧
    ((relax 1 false [{ value := 0, size := 8, secIdx := some 0 }]
      { secAddr := 0, rawData := [0x17, 0, 0, 0, 0x67, 0, 0, 0],
        relocations := [{ offset := 0, rtype := .R_RISCV_CALL, addend := 0, symVA := 2 },
          { offset := 0, rtype := .R_RISCV_RELAX, addend := 0 }],
        anchors := [⟨0, 0, false⟩, ⟨8, 0, true⟩],
        relocDeltas := [0, 0],
        relocTypes := [.R_RISCV_NONE, .R_RISCV_NONE] }).syms[0]?).map Sym.size =
      some 2 := by
  have h := relax_symbol_value_size 1 false
    [{ value := 0, size := 8, secIdx := some 0 }]
    { secAddr := 0, rawData := [0x17, 0, 0, 0, 0x67, 0, 0, 0],
      relocations := [{ offset := 0, rtype := .R_RISCV_CALL, addend := 0, symVA := 2 },
        { offset := 0, rtype := .R_RISCV_RELAX, addend := 0 }],
      anchors := [⟨0, 0, false⟩, ⟨8, 0, true⟩],
      relocDeltas := [0, 0],
      relocTypes := [.R_RISCV_NONE, .R_RISCV_NONE] }
    0 0 8 { value := 0, size := 8, secIdx := some 0 } [] [] []
    rfl (by simp) (by decide) rfl (by decide) (by decide)
  constructor
  · rw [h.1]
    decide
  · rw [h.2]
    decide

/-- Claim C2: during every relaxation pass over a section, `relocDeltas`
is non-decreasing, its final value equals the total bytes removed from the
section (recorded as `bytesDropped`), and a length decrease that exceeds
65535 bytes is a fatal error. -/
theorem relax_deltas_spec (eflags : Nat) (is64 : Bool) (syms : List Sym)
    (sec : InputSection) :
    ((relax eflags is64 syms sec).relocDeltas).Pairwise (· ≤ ·) ∧
    (sec.relocations ≠ [] →
      (relax eflags is64 syms sec).relocDeltas.getLast? =
        some (totalRemoved ⟨eflags, is64, sec.secAddr, sec.rawData⟩
          sec.relocations 0)) ∧
    (relax eflags is64 syms sec).bytesDropped =
      totalRemoved ⟨eflags, is64, sec.secAddr, sec.rawData⟩ sec.relocations 0 ∧
    ((relax eflags is64 syms sec).fatalErr = true ↔
      65535 < totalRemoved ⟨eflags, is64, sec.secAddr, sec.rawData⟩
        sec.relocations 0) := by
  have hdel : (relax eflags is64 syms sec).relocDeltas =
      deltasFrom ⟨eflags, is64, sec.secAddr, sec.rawData⟩ sec.relocations 0 := by
    simp only [relax, relaxLoop_deltas]
    simp
  have hdelta : (relaxLoop ⟨eflags, is64, sec.secAddr, sec.rawData⟩
      (phase1VD sec.relocations sec.relocDeltas sec.anchors) sec.relocations
      sec.relocDeltas
      { syms := syms, sa := sec.anchors, delta := 0, deltas := [],
        types := [], writes := [], changed := false }).delta =
      totalRemoved ⟨eflags, is64, sec.secAddr, sec.rawData⟩ sec.relocations 0 := by
    rw [relaxLoop_delta]
    simp
  have hbd : (relax eflags is64 syms sec).bytesDropped =
      totalRemoved ⟨eflags, is64, sec.secAddr, sec.rawData⟩ sec.relocations 0 := by
    simp only [relax]
    exact hdelta
  have hfat : (relax eflags is64 syms sec).fatalErr =
      decide (¬ totalRemoved ⟨eflags, is64, sec.secAddr, sec.rawData⟩
        sec.relocations 0 < 2 ^ 16) := by
    simp only [relax]
    rw [hdelta]
  refine ⟨?_, ?_, hbd, ?_⟩
  · rw [hdel]
    exact List.chain'_iff_pairwise.mp
      (deltasFrom_chain ⟨eflags, is64, sec.secAddr, sec.rawData⟩ sec.relocations 0).tail
  · intro hne
    rw [hdel, deltasFrom_getLast _ _ _ hne]
    simp
  · rw [hfat]
    constructor
    · intro h
      have := of_decide_eq_true h
      omega
    · intro h
      apply decide_eq_true
      omega

/-- Witness for C2: on the C1 witness section (one relaxable call, 6 bytes
removed) the last `relocDeltas` entry equals the total bytes removed. -/
theorem relax_deltas_spec_witness :
    (relax 1 false [{ value := 0, size := 8, secIdx := some 0 }]
      { secAddr := 0, rawData := [0x17, 0, 0, 0, 0x67, 0, 0, 0],
        relocations := [{ offset := 0, rtype := .R_RISCV_CALL, addend := 0, symVA := 2 },
          { offset := 0, rtype := .R_RISCV_RELAX, addend := 0 }],
        anchors := [⟨0, 0, false⟩, ⟨8, 0, true⟩],
        relocDeltas := [0, 0],
        relocTypes := [.R_RISCV_NONE, .R_RISCV_NONE] }).relocDeltas.getLast? =
      some (totalRemoved ⟨1, false, 0, [0x17, 0, 0, 0, 0x67, 0, 0, 0]⟩
        [{ offset := 0, rtype := .R_RISCV_CALL, addend := 0, symVA := 2 },
          { offset := 0, rtype := .R_RISCV_RELAX, addend := 0 }] 0) := by
  exact (relax_deltas_spec 1 false [{ value := 0, size := 8, secIdx := some 0 }]
    { secAddr := 0, rawData := [0x17, 0, 0, 0, 0x67, 0, 0, 0],
      relocations := [{ offset := 0, rtype := .R_RISCV_CALL, addend := 0, symVA := 2 },
        { offset := 0, rtype := .R_RISCV_RELAX, addend := 0 }],
      anchors := [⟨0, 0, false⟩, ⟨8, 0, true⟩],
      relocDeltas := [0, 0],
      relocTypes := [.R_RISCV_NONE, .R_RISCV_NONE] }).2.1 (by decide)

/-- Claim C3: for a CALL/CALL_PLT/CHERI_CCALL auipc+jalr pair immediately
followed by a RELAX hint, `relaxCall` rewrites it exactly as the source's
three-way conditional: `c.j` (`0xa001`, type RVC_JUMP or CHERI_RVC_CJUMP,
remove 6) when compressed is enabled, the displacement fits signed 12 bits
and `rd = 0`; `c.jal` (`0x2001`, remove 6) when additionally `rd = x1` and
the target is 32-bit; `jal` (`0x6f ||| rd <<< 7`, type JAL or CHERI_CJAL,
remove 4) when the displacement fits signed 21 bits; otherwise no change. -/
theorem relaxCall_rewrites (ctx : RelaxCtx) (r : Relocation)
    (rest : List Relocation) (delta : Nat)
    (hty : r.rtype = .R_RISCV_CALL ∨ r.rtype = .R_RISCV_CALL_PLT ∨
      r.rtype = .R_RISCV_CHERI_CCALL)
    (hnext : nextIsRelax rest = true) :
    decisionOf ctx r rest delta =
      relaxCall ctx r ((ctx.secAddr : Int) + r.offset - delta) ∧
    ∀ loc : Int,
      ((ctx.eflags &&& EF_RISCV_RVC ≠ 0 ∧
        isIntN 12 ((if r.isPltExpr then r.symPltVA else r.symVA) + r.addend - loc) = true ∧
        extractBits (read64le ctx.rawData r.offset) (32 + 11) (32 + 7) = 0) →
        relaxCall ctx r loc =
          { newType := some (if r.rtype = .R_RISCV_CHERI_CCALL then
              RelType.R_RISCV_CHERI_RVC_CJUMP else .R_RISCV_RVC_JUMP),
            push := some 0xa001, remove := 6 }) ∧
      ((ctx.eflags &&& EF_RISCV_RVC ≠ 0 ∧
        isIntN 12 ((if r.isPltExpr then r.symPltVA else r.symVA) + r.addend - loc) = true ∧
        extractBits (read64le ctx.rawData r.offset) (32 + 11) (32 + 7) = X_RA ∧
        ctx.is64 = false) →
        relaxCall ctx r loc =
          { newType := some (if r.rtype = .R_RISCV_CHERI_CCALL then
              RelType.R_RISCV_CHERI_RVC_CJUMP else .R_RISCV_RVC_JUMP),
            push := some 0x2001, remove := 6 }) ∧
      ((isIntN 21 ((if r.isPltExpr then r.symPltVA else r.symVA) + r.addend - loc) = true ∧
        ¬ (ctx.eflags &&& EF_RISCV_RVC ≠ 0 ∧
          isIntN 12 ((if r.isPltExpr then r.symPltVA else r.symVA) + r.addend - loc) = true ∧
          extractBits (read64le ctx.rawData r.offset) (32 + 11) (32 + 7) = 0) ∧
        ¬ (ctx.eflags &&& EF_RISCV_RVC ≠ 0 ∧
          isIntN 12 ((if r.isPltExpr then r.symPltVA else r.symVA) + r.addend - loc) = true ∧
          extractBits (read64le ctx.rawData r.offset) (32 + 11) (32 + 7) = X_RA ∧
          ctx.is64 = false)) →
        relaxCall ctx r loc =
          { newType := some (if r.rtype = .R_RISCV_CHERI_CCALL then
              RelType.R_RISCV_CHERI_CJAL else .R_RISCV_JAL),
            push := some (0x6f |||
              (extractBits (read64le ctx.rawData r.offset) (32 + 11) (32 + 7) <<< 7)),
            remove := 4 }) ∧
      ((¬ (ctx.eflags &&& EF_RISCV_RVC ≠ 0 ∧
          isIntN 12 ((if r.isPltExpr then r.symPltVA else r.symVA) + r.addend - loc) = true ∧
          extractBits (read64le ctx.rawData r.offset) (32 + 11) (32 + 7) = 0) ∧
        ¬ (ctx.eflags &&& EF_RISCV_RVC ≠ 0 ∧
          isIntN 12 ((if r.isPltExpr then r.symPltVA else r.symVA) + r.addend - loc) = true ∧
          extractBits (read64le ctx.rawData r.offset) (32 + 11) (32 + 7) = X_RA ∧
          ctx.is64 = false) ∧
        ¬ isIntN 21 ((if r.isPltExpr then r.symPltVA else r.symVA) + r.addend - loc) = true) →
        relaxCall ctx r loc = {}) := by
  constructor
  · obtain ⟨o, ty, ad, pe, va, pva, pcc, g1, g2⟩ := r
    simp only at hty
    rcases hty with h | h | h <;> subst h <;>
      simp [decisionOf, hnext]
  · intro loc
    refine ⟨?_, ?_, ?_, ?_⟩
    · rintro ⟨h1, h2, h3⟩
      rw [relaxCall]
      rw [if_pos ⟨h1, h2, h3⟩]
    · rintro ⟨h1, h2, h3, h4⟩
      rw [relaxCall]
      rw [if_neg (by
        rintro ⟨-, -, h0⟩
        rw [h0] at h3
        exact absurd h3.symm (by decide))]
      rw [if_pos ⟨h1, h2, h3, h4⟩]
    · rintro ⟨h21, hn1, hn2⟩
      rw [relaxCall]
      rw [if_neg hn1, if_neg hn2, if_pos h21]
    · rintro ⟨hn1, hn2, hn3⟩
      rw [relaxCall]
      rw [if_neg hn1, if_neg hn2, if_neg hn3]

/-- Witness for C3: with RVC enabled, a displacement of +2 and `rd = 0`
(second word `jalr x0`), the call pair is rewritten to `c.j` (`0xa001`)
with type `R_RISCV_RVC_JUMP`, removing 6 bytes. -/
theorem relaxCall_rewrites_witness :
    relaxCall ⟨1, false, 0, [0x17, 0, 0, 0, 0x67, 0, 0, 0]⟩
      { offset := 0, rtype := .R_RISCV_CALL, addend := 0, symVA := 2 } 0 =
      { newType := some .R_RISCV_RVC_JUMP, push := some 0xa001, remove := 6 } := by
  have h := relaxCall_rewrites ⟨1, false, 0, [0x17, 0, 0, 0, 0x67, 0, 0, 0]⟩
    { offset := 0, rtype := .R_RISCV_CALL, addend := 0, symVA := 2 }
    [{ offset := 0, rtype := .R_RISCV_RELAX, addend := 0 }] 0 (Or.inl rfl) rfl
  have h2 := (h.2 0).1 ⟨by decide, by decide, by decide⟩
  rw [h2]
  decide

/-- Claim C4: for every `v` in the signed 32-bit range, the biased hi/lo
split round-trips: sign-extending `lo12(v)` and adding `hi20(v) <<< 12`
reproduces `v` as a signed 32-bit quantity (the arithmetic the 32-bit
`auipc`/`addi` pair performs). -/
theorem hi_lo_round (v : Int) (hlo : -(2 ^ 31) ≤ v) (hhi : v < 2 ^ 31) :
    toSigned32 (signExtend12 (lo12 (toU32 v)) +
      ((hi20 (toU32 v) <<< 12 : Nat) : Int)) = v := by
  have hkey : ∀ u : Nat, u < 2 ^ 32 →
      (signExtend12 (lo12 u) + ((hi20 u <<< 12 : Nat) : Int)) % (2 ^ 32 : Int)
        = (u : Int) % (2 ^ 32 : Int) := by
    intro u hu
    have h1 : lo12 u = u % 4096 := by
      have h := Nat.and_pow_two_sub_one_eq_mod u 12
      norm_num at h
      simpa [lo12] using h
    have h2 : hi20 u <<< 12 = ((u + 2048) % 2 ^ 32) / 4096 * 4096 := by
      simp [hi20, Nat.shiftLeft_eq, Nat.shiftRight_eq_div_pow]
    rw [h1, h2, signExtend12]
    split <;> push_cast <;> omega
  have hu : ((toU32 v : Nat) : Int) = v % 2 ^ 32 := by
    simp only [toU32]
    omega
  have hub : toU32 v < 2 ^ 32 := by omega
  have hk := hkey (toU32 v) hub
  rw [toSigned32, hk, hu]
  split <;> omega

/-- Witness for C4 at `v = -5`. -/
theorem hi_lo_round_witness :
    toSigned32 (signExtend12 (lo12 (toU32 (-5))) +
      ((hi20 (toU32 (-5)) <<< 12 : Nat) : Int)) = -5 :=
  hi_lo_round (-5) (by decide) (by decide)

/-- Counterexample to C5 as stated: applying `R_RISCV_BRANCH` with value
+252 to `beq x1, x2, .` (`0x00208063`) does not produce the claimed word
`0x0C208E63` (that word encodes an immediate of +220). -/
theorem relocateBranch_claim_cex :
    relocateBranch 0x00208063 252 ≠ .ok 0x0C208E63 := by
  rw [show relocateBranch 0x00208063 252 = .ok 0x0E208E63 from rfl]
  intro h
  exact absurd (Except.ok.inj h) (by decide)

/-- Claim C5 (amended): applying `R_RISCV_BRANCH` with computed value +252
to `0x00208063` passes the alignment and signed-12-bit range checks and
writes `0x0E208E63` (immediate +252 scattered into the B-type fields, the
opcode/rs1/rs2 bits of mask `0x1FFF07F` preserved). -/
theorem relocateBranch_inRange :
    relocateBranch 0x00208063 252 = .ok 0x0E208E63 := rfl

/-- Claim C6: applying `R_RISCV_JAL` with a displacement of +0x100001
(whose half does not fit in 20 signed bits) reports a range error and
performs no write, whatever instruction word is at the location. -/
theorem relocateJal_outOfRange :
    ∀ insn : Nat, relocateJal insn 0x100001 = .error "relocation out of range" := by
  intro insn
  simp [relocateJal]
  decide

/-- Counterexample to C7 as stated: two orders of the same three objects
(flags `0x10`, `0`, `0`; the `0x10` bit is checked by none of the four
field comparisons) both merge without error yet give different merged
flags, because the non-seed objects contribute nothing but their RVC bit. -/
theorem calcEFlags_claim_cex :
    (calcEFlags [16, 0, 0]).2 = true ∧ (calcEFlags [0, 16, 0]).2 = true ∧
    [0, 16, 0].Perm [16, 0, 0] ∧
    (calcEFlags [16, 0, 0]).1 ≠ (calcEFlags [0, 16, 0]).1 :=
  ⟨by decide, by decide, List.Perm.swap 16 0 [0], by decide⟩

/-- Claim C7 (amended): for three input objects whose flags agree on every
bit outside `EF_RISCV_RVC`, merging them in any order that does not
produce an error yields the same merged flags value. -/
theorem calcEFlags_order_independent (a b c : Nat)
    (hab : a ||| EF_RISCV_RVC = b ||| EF_RISCV_RVC)
    (hbc : b ||| EF_RISCV_RVC = c ||| EF_RISCV_RVC)
    (l1 l2 : List Nat) (h1 : l1.Perm [a, b, c]) (h2 : l2.Perm [a, b, c])
    (hok1 : (calcEFlags l1).2 = true) (hok2 : (calcEFlags l2).2 = true) :
    (calcEFlags l1).1 = (calcEFlags l2).1 := by
  rw [calcEFlags_perm_val a b c hab hbc l1 h1,
    calcEFlags_perm_val a b c hab hbc l2 h2]

/-- Witness for C7: objects `7, 6, 6` (the first carries RVC) merged in
two different orders give the same flags. -/
theorem calcEFlags_order_independent_witness :
    (calcEFlags [7, 6, 6]).1 = (calcEFlags [6, 7, 6]).1 :=
  calcEFlags_order_independent 7 6 6 (by decide) (by decide) [7, 6, 6]
    [6, 7, 6] (List.Perm.refl _) (List.Perm.swap 7 6 [6]) (by decide) (by decide)

/-- Counterexample to C8 as stated: in the non-CHERI PLT header the word
at byte offset 28 (the last of the eight) is `jalr x0, t3` and no word of
the header is the `nop` `0x00000013` — the claimed trailing `nop` is
absent precisely when `shift ≠ 0`, which always holds on this path
(`shift = 2 - is64`), and the source emits a `nop` only when `shift = 0`. -/
theorem writePltHeader_claim_cex :
    (writePltHeader false false 0).length = 8 ∧
    (writePltHeader false false 0).getLast? = some (itype JALR 0 X_T3 0) ∧
    itype JALR 0 X_T3 0 ≠ 0x00000013 ∧
    (0x00000013 : Nat) ∉ writePltHeader false false 0 := by
  refine ⟨by decide, by decide, by decide, by decide⟩

/-- Claim C8 (amended): the non-CHERI PLT header is 32 bytes holding
exactly the eight instructions auipc t2, sub t1, pointer-load of t3,
addi t1, addi t0, srli t1 by `shift`, pointer-load of t0, and jalr x0,t3,
with `2 ^ shift = pltEntrySize / ptrSize` and `shift ≠ 0`; a trailing
`nop` is emitted only when `shift = 0` (never on this path). -/
theorem writePltHeader_nonCheri (is64 : Bool) (offset : Nat) :
    writePltHeader is64 false offset =
      [utype AUIPC X_T2 (hi20 offset),
        rtype SUB X_T1 X_T1 X_T3,
        itype (if is64 then LD else LW) X_T3 X_T2 (lo12 offset),
        itype ADDI X_T1 X_T1 (2 ^ 32 - 44),
        itype ADDI X_T0 X_T2 (lo12 offset),
        itype SRLI X_T1 X_T1 (2 - (if is64 then 1 else 0)),
        itype (if is64 then LD else LW) X_T0 X_T0 (if is64 then 8 else 4),
        itype JALR 0 X_T3 0] ∧
    (writePltHeader is64 false offset).length = 8 ∧
    2 ^ (2 - (if is64 then 1 else 0)) = 16 / (if is64 then 8 else 4) ∧
    2 - (if is64 then 1 else 0) ≠ 0 := by
  cases is64 <;>
    exact ⟨rfl, rfl, by decide, by decide⟩

/-- Counterexample to C9 as stated: for an interrupts-enabled entry with
no used argument registers, the emitted byte is `8`
(`usedArgRegs + interruptFlag` with `interruptFlag = 1 <<< 3`), not the
claimed `(usedArgRegs) ||| (interruptFlag <<< 3) = 64`. -/
theorem exportRecord_claim_cex :
    exportRecordBytes 0 0 0 .enabled = [0, 0, 0, 8] ∧
    (8 : Nat) ≠ 0 ||| ((1 <<< 3) <<< 3) := by
  exact ⟨by decide, by decide⟩

/-- Claim C9 (amended): every `.compartment_exports` record is 4 bytes:
2 bytes of label difference `fnSym - __compartment_pcc_start`, 1 byte
`min(255, ceil(stackSize/8))`, and 1 byte `(usedArgRegs) ||| interruptFlag`
with `interruptFlag ∈ {0, 1 <<< 3, 2 <<< 3}` for
unspecified/enabled/disabled. -/
theorem exportRecord_spec (labelDiff stackSize usedArgRegs : Nat)
    (ist : InterruptState) (hused : usedArgRegs < 8)
    (hdiff : labelDiff < 2 ^ 16) :
    exportRecordBytes labelDiff stackSize usedArgRegs ist =
      [labelDiff % 256, labelDiff / 256, min 255 ((stackSize + 7) / 8),
        usedArgRegs ||| interruptFlagOf ist] ∧
    (exportRecordBytes labelDiff stackSize usedArgRegs ist).length = 4 ∧
    (interruptFlagOf ist = 0 ∨ interruptFlagOf ist = 1 <<< 3 ∨
      interruptFlagOf ist = 2 <<< 3) := by
  have h2 : labelDiff / 256 % 256 = labelDiff / 256 := by omega
  have h4 : (usedArgRegs + interruptFlagOf ist) % 256 =
      usedArgRegs ||| interruptFlagOf ist := by
    cases ist <;> simp only [interruptFlagOf] <;>
      interval_cases usedArgRegs <;> decide
  refine ⟨?_, rfl, ?_⟩
  · rw [exportRecordBytes, h2, h4]
  · cases ist <;> simp [interruptFlagOf]

/-- Witness for C9 at a concrete entry: label difference 10, stack size 9,
three used argument registers, interrupts disabled. -/
theorem exportRecord_spec_witness :
    exportRecordBytes 10 9 3 .disabled =
      [10 % 256, 10 / 256, min 255 ((9 + 7) / 8),
        3 ||| interruptFlagOf .disabled] ∧
    (exportRecordBytes 10 9 3 .disabled).length = 4 ∧
    (interruptFlagOf .disabled = 0 ∨ interruptFlagOf .disabled = 1 <<< 3 ∨
      interruptFlagOf .disabled = 2 <<< 3) :=
  exportRecord_spec 10 9 3 .disabled (by decide) (by decide)

/-- Claim C10: for every pass number, when `--relocatable` is set,
`relaxOnce` returns false immediately, without initialising symbol
anchors, relaxing any section, or mutating any symbol or section state. -/
theorem relaxOnce_relocatable (cfg : Config) (pass : Nat) (st : LinkState)
    (h : cfg.relocatable = true) :
    relaxOnce cfg pass st = ⟨false, st, false⟩ := by
  rw [relaxOnce, if_pos h]

/-- Witness for C10 at pass 0 on an empty link state. -/
theorem relaxOnce_relocatable_witness :
    relaxOnce { relocatable := true } 0 { syms := [], sections := [] } =
      ⟨false, { syms := [], sections := [] }, false⟩ :=
  relaxOnce_relocatable _ 0 _ rfl

end RV
